import Mathlib

/-!
# TasteBuddy backend: the EDEKA adapter and the user store

A shallow embedding of `backend/edeka.go` (`GetEdekaMarkets`, `GetEdekaDiscounts`) and of
`backend/user.go` (`AddOrUpdateUser`, `SetUserLevel`).

Collaborators that live outside the two files are explicit arguments: the fetcher
`GetFromUrl`, `strconv.ParseFloat`, and the MongoDB users collection.  The parts of the Go
standard library whose behaviour decides a property (`encoding/json` decoding into the two
response structs, `strconv.Itoa`, `strconv.FormatFloat(_, 'f', -1, 32)`, `ObjectID.Hex`) are
modelled concretely.  `LogError` and `LogWarning` only write to the log and return nothing;
they are left out.
-/

namespace TasteBuddy

/-! ## JSON documents -/

/-- A JSON number literal `[-]int[.frac][e exp]`, kept as written: `frac` holds the digits
after the decimal point (empty when the literal has no fraction part) and `exp` the exponent
when the literal has one. -/
structure JNumber where
  neg : Bool
  intPart : Nat
  frac : List (Fin 10)
  exp : Option Int
  deriving DecidableEq, Repr

/-- A JSON value; an object keeps its members in document order, duplicates included. -/
inductive JValue where
  | null
  | bool (b : Bool)
  | num (n : JNumber)
  | str (s : String)
  | arr (elems : List JValue)
  | obj (members : List (String × JValue))
  deriving Repr

/-- Go `error` values that reach the callers of the embedded functions. -/
inductive GoError where
  | transport (msg : String)
  | syntaxError (msg : String) (offset : Nat)
  | unmarshalType (value : JValue) (goType : String)
  | database (msg : String)
  | other (msg : String)
  deriving Repr

/-- The bytes of a response, seen through the syntax check that `json.Unmarshal` runs first:
either they are not a JSON text, or they are the text of one JSON value. -/
inductive Body where
  | malformed (msg : String) (offset : Nat)
  | json (v : JValue)
  deriving Repr

/-! ## Machine values -/

/-- An IEEE-754 binary64 value, given by its 64 bits (`math.Float64bits`). -/
structure Float64 where
  bits : Nat
  deriving DecidableEq, Repr

/-- The Go constant `0` as a `float64`. -/
def Float64.zero : Float64 := ⟨0⟩

/-- A `primitive.ObjectID`: twelve bytes. -/
def ObjectID : Type := { bs : List (Fin 256) // bs.length = 12 }

instance : DecidableEq ObjectID := inferInstanceAs (DecidableEq { bs : List (Fin 256) // bs.length = 12 })

/-- The zero value `primitive.NilObjectID`. -/
def NilObjectID : ObjectID := ⟨List.replicate 12 0, rfl⟩

/-- `ObjectID.IsZero`: all twelve bytes are zero. -/
def ObjectID.IsZero (id : ObjectID) : Bool := decide (id = NilObjectID)

/-- One lower-case hexadecimal digit, as in `encoding/hex`. -/
def hexDigit (n : Nat) : Char := "0123456789abcdef".data.getD n '0'

/-- `ObjectID.Hex`: two lower-case hexadecimal digits per byte. -/
def ObjectID.Hex (id : ObjectID) : String :=
  String.mk (id.val.flatMap fun b => [hexDigit (b.val / 16), hexDigit (b.val % 16)])

/-- Go `int` on a 64-bit platform. -/
def minInt64 : Int := -(2 ^ 63)

/-- Largest Go `int` on a 64-bit platform. -/
def maxInt64 : Int := 2 ^ 63 - 1

/-! ## `strconv.Itoa` -/

/-- The decimal digit `d` as a character. -/
def digitChar (d : Nat) : Char := "0123456789".data.getD d '0'

/-- Digits of `n` in base ten, most significant first, pushed in front of `acc`. -/
def formatBits : Nat → Nat → List Char → List Char
  | 0, _, acc => acc
  | fuel + 1, n, acc =>
    if n / 10 = 0 then digitChar (n % 10) :: acc
    else formatBits fuel (n / 10) (digitChar (n % 10) :: acc)

/-- Decimal digits of a natural number (`"0"` for zero). -/
def utoa (n : Nat) : List Char := formatBits (n + 1) n []

/-- `strconv.Itoa`: decimal representation, with a leading `-` for negative numbers. -/
def Itoa (k : Int) : String :=
  if k < 0 then String.mk ('-' :: utoa k.natAbs) else String.mk (utoa k.natAbs)

/-- The number a string of decimal digits denotes. -/
def valChars (l : List Char) : Nat := l.foldl (fun a c => 10 * a + (c.toNat - 48)) 0


/-! ## Binary floating point: `float32(x)` and `strconv.FormatFloat(x, 'f', -1, 32)` -/

/-- The table `floatInfo` of `strconv`. -/
structure FloatInfo where
  mantbits : Nat
  expbits : Nat
  bias : Int

/-- The entry `float32info`. -/
def float32info : FloatInfo := ⟨23, 8, -127⟩

/-- The entry `float64info`. -/
def float64info : FloatInfo := ⟨52, 11, -1023⟩

/-- Number of binary digits of `n`. -/
def bitLen : Nat → Nat → Nat
  | 0, _ => 0
  | fuel + 1, n => if n = 0 then 0 else bitLen fuel (n / 2) + 1

/-- The fraction `p / q` divided by `2 ^ e`, as a fraction. -/
def scalePow2 (p q : Nat) (e : Int) : Nat × Nat :=
  if 0 ≤ e then (p, q * 2 ^ e.toNat) else (p * 2 ^ (-e).toNat, q)

/-- The integer nearest to `p / q`, the even one of two nearest. -/
def roundHalfEven (p q : Nat) : Nat :=
  let n := p / q
  let r := p % q
  if 2 * r < q then n
  else if q < 2 * r then n + 1
  else if n % 2 = 0 then n else n + 1

/-- Floor of the binary logarithm of `p / q`, for positive `p` and `q`. -/
def floorLog2 (p q : Nat) : Int :=
  let l : Int := (bitLen p p : Int) - (bitLen q q : Int)
  let s := scalePow2 p q l
  if s.2 ≤ s.1 then l else l - 1

/-- Bits of infinity in a format. -/
def infBits (flt : FloatInfo) : Nat := (2 ^ flt.expbits - 1) * 2 ^ flt.mantbits

/-- Bits (without the sign) of the value of the format nearest to `p / q`, ties to even;
the bits of infinity when `p / q` rounds beyond the largest finite value. -/
def roundToBits (flt : FloatInfo) (p q : Nat) : Nat :=
  if p = 0 then 0
  else
    let minexp : Int := flt.bias + 1
    let e0 : Int := max (floorLog2 p q) minexp
    let s := scalePow2 p q (e0 - flt.mantbits)
    let m0 := roundHalfEven s.1 s.2
    let carry : Bool := decide (m0 = 2 ^ (flt.mantbits + 1))
    let mant := if carry then 2 ^ flt.mantbits else m0
    let e : Int := if carry then e0 + 1 else e0
    if -flt.bias < e then infBits flt
    else if mant < 2 ^ flt.mantbits then mant
    else (e - flt.bias).toNat * 2 ^ flt.mantbits + (mant - 2 ^ flt.mantbits)

/-- Value of a JSON number literal without its sign, as a fraction. -/
def JNumber.magnitude (n : JNumber) : Nat × Nat :=
  let digits := n.frac.foldl (fun a d => 10 * a + d.val) n.intPart
  let e : Int := n.exp.getD 0 - n.frac.length
  if 0 ≤ e then (digits * 10 ^ e.toNat, 1) else (digits, 10 ^ (-e).toNat)

/-- `strconv.ParseFloat(literal, 64)` on a JSON number literal: the nearest `float64`, and
nothing when the literal is out of range. -/
def parseFloat64 (n : JNumber) : Option Float64 :=
  let m := n.magnitude
  let bits := roundToBits float64info m.1 m.2
  if bits = infBits float64info then none
  else some ⟨(if n.neg then 2 ^ 63 else 0) + bits⟩

/-- `math.Float32bits(float32(val))`: the bits of the `float32` nearest to a `float64`. -/
def float32bits (val : Float64) : Nat :=
  let sign : Nat := val.bits / 2 ^ 63 % 2
  let exp : Nat := val.bits / 2 ^ 52 % 2 ^ 11
  let frac : Nat := val.bits % 2 ^ 52
  let mag :=
    if exp = 2 ^ 11 - 1 then
      (if frac = 0 then infBits float32info else infBits float32info + 2 ^ 22 + frac / 2 ^ 29)
    else if exp = 0 then roundToBits float32info frac (2 ^ 1074)
    else
      let s := scalePow2 (frac + 2 ^ 52) 1 (1075 - (exp : Int))
      roundToBits float32info s.1 s.2
  sign * 2 ^ 31 + mag

/-- The type `decimalSlice` of `strconv`: digits `d` with the decimal point after the first
`dp` of them, that is the value `0.d × 10 ^ dp`. -/
structure decimalSlice where
  d : List Char
  dp : Int
  deriving DecidableEq, Repr

/-- Smallest `k` (within `fuel` steps) with `D ≤ V * 10 ^ k`. -/
def leadingZeros : Nat → Nat → Nat → Nat → Nat
  | 0, _, _, k => k
  | fuel + 1, V, D, k => if D ≤ V * 10 ^ k then k else leadingZeros fuel V D (k + 1)

/-- Position of the decimal point of the positive fraction `V / D`:
`10 ^ (dp - 1) ≤ V / D < 10 ^ dp`. -/
def decimalPoint (V D : Nat) : Int :=
  if D ≤ V then ((utoa (V / D)).length : Int)
  else 1 - (leadingZeros (bitLen D D) V D 1 : Int)

/-- Drop the zeros at the end of a digit string. -/
def trimZeros (ds : List Char) : List Char :=
  (ds.reverse.dropWhile fun c => c == '0').reverse

/-- Shortest digit string between the bounds `L / D` and `U / D` around `V / D`: with
`nd`, `nd + 1`, ... digits, the value cut off after that many digits or the next digit
string above it, whichever lies within the bounds, and of two that do the nearer one. -/
def shortestLoop (V L U D : Nat) (inclusive : Bool) (dp : Int) : Nat → Nat → decimalSlice
  | 0, nd => ⟨trimZeros (utoa (V * 10 ^ (nd - dp).toNat / (D * 10 ^ (dp - nd).toNat))), dp⟩
  | fuel + 1, nd =>
    let k : Int := nd - dp
    let up10 := 10 ^ k.toNat
    let M := D * 10 ^ (-k).toNat
    let N := V * up10
    let down := N / M
    let up := down + 1
    let okdown : Bool :=
      decide (L * up10 < down * M) || (inclusive && decide (L * up10 = down * M))
    let okup : Bool :=
      decide (up * M < U * up10) || (inclusive && decide (up * M = U * up10))
    let exact : Bool := decide (N % M = 0)
    let lowGap := N - down * M
    let highGap := up * M - N
    let useUp : Bool :=
      !exact && okup && (!okdown || decide (highGap < lowGap) ||
        (decide (highGap = lowGap) && decide (down % 2 = 1)))
    if exact || okdown || okup then
      if useUp then
        (if up = 10 ^ nd then ⟨['1'], dp + 1⟩ else ⟨trimZeros (utoa up), dp⟩)
      else ⟨trimZeros (utoa down), dp⟩
    else shortestLoop V L U D inclusive dp fuel (nd + 1)

/-- The shortest decimal that identifies `mant × 2 ^ (exp - mantbits)` among the values of
the format (`roundShortest` of `strconv`): `upper` and `lower` are the midpoints to the
neighbouring values, admissible themselves when `mant` is even.  `maxDigits` bounds the
number of digits tried; no `float32` has more than 112 significant decimal digits. -/
def roundShortest (mant : Nat) (exp : Int) (flt : FloatInfo) (maxDigits : Nat) : decimalSlice :=
  if mant = 0 then ⟨[], 0⟩
  else
    let minexp : Int := flt.bias + 1
    let s : Int := exp - flt.mantbits - 2
    let up2 := 2 ^ s.toNat
    let D := 2 ^ (-s).toNat
    let V := 4 * mant * up2
    let U := (4 * mant + 2) * up2
    let L := if 2 ^ flt.mantbits < mant ∨ exp = minexp then (4 * mant - 2) * up2
      else (4 * mant - 1) * up2
    let inclusive : Bool := decide (mant % 2 = 0)
    shortestLoop V L U D inclusive (decimalPoint V D) maxDigits 1

/-- The function `fmtF` of `strconv`: `%f` layout with `prec` digits after the point. -/
def fmtF (neg : Bool) (d : decimalSlice) (prec : Nat) : String :=
  let nd : Int := d.d.length
  let sign := if neg then ['-'] else []
  let integer :=
    if 0 < d.dp then
      let m := min d.d.length d.dp.toNat
      d.d.take m ++ List.replicate (d.dp.toNat - m) '0'
    else ['0']
  let fraction :=
    if 0 < prec then
      '.' :: (List.range prec).map fun i =>
        let j : Int := d.dp + i
        if 0 ≤ j ∧ j < nd then d.d.getD j.toNat '0' else '0'
    else []
  String.mk (sign ++ integer ++ fraction)

/-- `strconv.FormatFloat(val, 'f', -1, 32)`, following `genericFtoa`: the value is first
converted to `float32`, then the shortest digits that identify that `float32` are laid
out without an exponent. -/
def FormatFloat32 (val : Float64) : String :=
  let flt := float32info
  let bits := float32bits val
  let neg : Bool := decide (bits / 2 ^ (flt.expbits + flt.mantbits) ≠ 0)
  let exp : Nat := bits / 2 ^ flt.mantbits % 2 ^ flt.expbits
  let mant : Nat := bits % 2 ^ flt.mantbits
  if exp = 2 ^ flt.expbits - 1 then
    (if mant ≠ 0 then "NaN" else if neg then "-Inf" else "+Inf")
  else
    let mant1 := if exp = 0 then mant else mant + 2 ^ flt.mantbits
    let exp1 : Int := (if exp = 0 then 1 else (exp : Int)) + flt.bias
    let digs := roundShortest mant1 exp1 flt 120
    fmtF neg digs (digs.d.length - digs.dp).toNat

/-! ## `encoding/json` into the response structs -/

/-- Case folding of one key character: ASCII letters, plus the two other runes that fold to
an ASCII letter (KELVIN SIGN to `k`, LATIN SMALL LETTER LONG S to `s`). -/
def foldRune (c : Char) : Char :=
  if c = Char.ofNat 0x212A then 'k'
  else if c = Char.ofNat 0x017F then 's'
  else c.toLower

/-- A JSON key selects the struct field of this name: equal up to case folding. -/
def equalFold (key name : String) : Bool :=
  key.data.map foldRune == name.data.map foldRune

/-- JSON into a Go `string`: `null` leaves the field as it is. -/
def decodeString (cur : String) : JValue → Except GoError String
  | .null => .ok cur
  | .str s => .ok s
  | v => .error (.unmarshalType v "string")

/-- JSON into a Go `int`: the literal must be a plain integer in range. -/
def decodeInt (cur : Int) : JValue → Except GoError Int
  | .null => .ok cur
  | .num n =>
    let k : Int := if n.neg then -(n.intPart : Int) else (n.intPart : Int)
    if n.frac = [] ∧ n.exp = none ∧ minInt64 ≤ k ∧ k ≤ maxInt64 then .ok k
    else .error (.unmarshalType (.num n) "int")
  | v => .error (.unmarshalType v "int")

/-- JSON into a Go `float64`: the nearest value, a type error when out of range. -/
def decodeFloat64 (cur : Float64) : JValue → Except GoError Float64
  | .null => .ok cur
  | .num n =>
    match parseFloat64 n with
    | some x => .ok x
    | none => .error (.unmarshalType (.num n) "float64")
  | v => .error (.unmarshalType v "float64")

/-- JSON into a Go struct: members are visited in document order, each decoded into the
field its key selects (the current field value is the starting point), unknown keys are
skipped, `null` leaves the struct as it is, anything but an object is a type error. -/
def decodeStruct {α : Type} (setField : α → String → JValue → Except GoError α)
    (cur : α) : JValue → Except GoError α
  | .null => .ok cur
  | .obj members => members.foldlM (fun acc kv => setField acc kv.1 kv.2) cur
  | v => .error (.unmarshalType v "struct")

/-- Elements of a JSON array into a slice: element `i` is decoded into the element the
slice already holds at `i`, or into a zero value. -/
def decodeElems {α : Type} (decodeElem : α → JValue → Except GoError α) (zero : α) :
    List α → List JValue → Except GoError (List α)
  | _, [] => .ok []
  | cur, v :: vs =>
    match decodeElem (cur.headD zero) v with
    | .error e => .error e
    | .ok x =>
      match decodeElems decodeElem zero cur.tail vs with
      | .error e => .error e
      | .ok xs => .ok (x :: xs)

/-- JSON into a Go slice of structs: `null` empties the slice, an array sets its length to
the number of elements, anything else is a type error. -/
def decodeSlice {α : Type} (decodeElem : α → JValue → Except GoError α) (zero : α)
    (cur : List α) : JValue → Except GoError (List α)
  | .null => .ok []
  | .arr elems => decodeElems decodeElem zero cur elems
  | v => .error (.unmarshalType v "slice")

/-- `json.Unmarshal(body, &x)` for `x` holding `start`: the syntax check, then the decode. -/
def Unmarshal {α : Type} (decode : α → JValue → Except GoError α) (start : α) :
    Body → Except GoError α
  | .malformed msg offset => .error (.syntaxError msg offset)
  | .json v => decode start v

/-! ### The market search response -/

/-- The anonymous struct `Contact.Address.City`. -/
structure EdekaCity where
  Name : String
  ZIP : String
  deriving Repr

/-- The anonymous struct `Contact.Address`. -/
structure EdekaAddress where
  City : EdekaCity
  Street : String
  deriving Repr

/-- The anonymous struct `Contact`. -/
structure EdekaContact where
  Address : EdekaAddress
  deriving Repr

/-- The anonymous struct `Coordinates` of a market entry. -/
structure EdekaCoordinates where
  Latitude : String
  Longitude : String
  deriving Repr

/-- One element of `EdekaMarketSearch.Markets`. -/
structure EdekaMarket where
  ID : Int
  Name : String
  Contact : EdekaContact
  Coordinates : EdekaCoordinates
  deriving Repr

/-- The struct `EdekaMarketSearch`, the response of the EDEKA market search. -/
structure EdekaMarketSearch where
  TotalCount : Int
  Markets : List EdekaMarket
  deriving Repr

/-- Zero value of the city struct. -/
def EdekaCity.zero : EdekaCity := ⟨"", ""⟩

/-- Zero value of the address struct. -/
def EdekaAddress.zero : EdekaAddress := ⟨EdekaCity.zero, ""⟩

/-- Zero value of the contact struct. -/
def EdekaContact.zero : EdekaContact := ⟨EdekaAddress.zero⟩

/-- Zero value of the coordinates struct. -/
def EdekaCoordinates.zero : EdekaCoordinates := ⟨"", ""⟩

/-- Zero value of a market entry. -/
def EdekaMarket.zero : EdekaMarket := ⟨0, "", EdekaContact.zero, EdekaCoordinates.zero⟩

/-- Zero value of `var edekaMarketSearch EdekaMarketSearch`. -/
def EdekaMarketSearch.zero : EdekaMarketSearch := ⟨0, []⟩

/-- Fields `name` and `zipCode`. -/
def EdekaCity.setField (cur : EdekaCity) (key : String) (v : JValue) :
    Except GoError EdekaCity :=
  if equalFold key "name" then (decodeString cur.Name v).map fun s => { cur with Name := s }
  else if equalFold key "zipCode" then (decodeString cur.ZIP v).map fun s => { cur with ZIP := s }
  else .ok cur

/-- Fields `City` (untagged) and `street`. -/
def EdekaAddress.setField (cur : EdekaAddress) (key : String) (v : JValue) :
    Except GoError EdekaAddress :=
  if equalFold key "City" then
    (decodeStruct EdekaCity.setField cur.City v).map fun c => { cur with City := c }
  else if equalFold key "street" then
    (decodeString cur.Street v).map fun s => { cur with Street := s }
  else .ok cur

/-- Field `address`. -/
def EdekaContact.setField (cur : EdekaContact) (key : String) (v : JValue) :
    Except GoError EdekaContact :=
  if equalFold key "address" then
    (decodeStruct EdekaAddress.setField cur.Address v).map fun a => { cur with Address := a }
  else .ok cur

/-- Fields `lat` and `lon`. -/
def EdekaCoordinates.setField (cur : EdekaCoordinates) (key : String) (v : JValue) :
    Except GoError EdekaCoordinates :=
  if equalFold key "lat" then
    (decodeString cur.Latitude v).map fun s => { cur with Latitude := s }
  else if equalFold key "lon" then
    (decodeString cur.Longitude v).map fun s => { cur with Longitude := s }
  else .ok cur

/-- Fields `id`, `name`, `contact` and `coordinates`. -/
def EdekaMarket.setField (cur : EdekaMarket) (key : String) (v : JValue) :
    Except GoError EdekaMarket :=
  if equalFold key "id" then (decodeInt cur.ID v).map fun k => { cur with ID := k }
  else if equalFold key "name" then (decodeString cur.Name v).map fun s => { cur with Name := s }
  else if equalFold key "contact" then
    (decodeStruct EdekaContact.setField cur.Contact v).map fun c => { cur with Contact := c }
  else if equalFold key "coordinates" then
    (decodeStruct EdekaCoordinates.setField cur.Coordinates v).map
      fun c => { cur with Coordinates := c }
  else .ok cur

/-- Fields `totalCount` and `markets`. -/
def EdekaMarketSearch.setField (cur : EdekaMarketSearch) (key : String) (v : JValue) :
    Except GoError EdekaMarketSearch :=
  if equalFold key "totalCount" then
    (decodeInt cur.TotalCount v).map fun k => { cur with TotalCount := k }
  else if equalFold key "markets" then
    (decodeSlice (decodeStruct EdekaMarket.setField) EdekaMarket.zero cur.Markets v).map
      fun ms => { cur with Markets := ms }
  else .ok cur

/-- The call `json.Unmarshal(body, &edekaMarketSearch)` of `GetEdekaMarkets`. -/
def unmarshalMarketSearch (body : Body) : Except GoError EdekaMarketSearch :=
  Unmarshal (decodeStruct EdekaMarketSearch.setField) EdekaMarketSearch.zero body

/-! ### The offers response -/

/-- One element of `edekaDiscounts.Docs`. -/
structure EdekaOffer where
  Price : Float64
  Title : String
  ImageUrl : String
  ValidUntil : Int
  deriving Repr

/-- The anonymous struct `edekaDiscounts`, the response of the EDEKA offers service. -/
structure EdekaDiscounts where
  Docs : List EdekaOffer
  deriving Repr

/-- Zero value of an offer. -/
def EdekaOffer.zero : EdekaOffer := ⟨Float64.zero, "", "", 0⟩

/-- Zero value of `var edekaDiscounts`. -/
def EdekaDiscounts.zero : EdekaDiscounts := ⟨[]⟩

/-- Fields `preis`, `titel`, `bild_app` and `gueltig_bis`. -/
def EdekaOffer.setField (cur : EdekaOffer) (key : String) (v : JValue) :
    Except GoError EdekaOffer :=
  if equalFold key "preis" then (decodeFloat64 cur.Price v).map fun x => { cur with Price := x }
  else if equalFold key "titel" then (decodeString cur.Title v).map fun s => { cur with Title := s }
  else if equalFold key "bild_app" then
    (decodeString cur.ImageUrl v).map fun s => { cur with ImageUrl := s }
  else if equalFold key "gueltig_bis" then
    (decodeInt cur.ValidUntil v).map fun k => { cur with ValidUntil := k }
  else .ok cur

/-- Field `docs`. -/
def EdekaDiscounts.setField (cur : EdekaDiscounts) (key : String) (v : JValue) :
    Except GoError EdekaDiscounts :=
  if equalFold key "docs" then
    (decodeSlice (decodeStruct EdekaOffer.setField) EdekaOffer.zero cur.Docs v).map
      fun ds => { cur with Docs := ds }
  else .ok cur

/-- The call `json.Unmarshal(body, &edekaDiscounts)` of `GetEdekaDiscounts`. -/
def unmarshalDiscounts (body : Body) : Except GoError EdekaDiscounts :=
  Unmarshal (decodeStruct EdekaDiscounts.setField) EdekaDiscounts.zero body

/-! ## The canonical model -/

/-- Modelled from the spec: the struct `Coordinates` is declared outside the two source
files; its fields are the ones `GetEdekaMarkets` fills. -/
structure Coordinates where
  Latitude : Float64
  Longitude : Float64
  deriving DecidableEq, Repr

/-- Modelled from the spec: the struct `MarketLocation` is declared outside the two source
files; its fields are the ones `GetEdekaMarkets` fills. -/
structure MarketLocation where
  Coordinates : Coordinates
  City : String
  Street : String
  ZipCode : String
  deriving DecidableEq, Repr

/-- Modelled from the spec: the struct `Market` is declared outside the two source files;
its fields are the ones `GetEdekaMarkets` fills and `GetEdekaDiscounts` reads (`ID` is the
storage identifier whose `Hex` the discount listing takes). -/
structure Market where
  ID : ObjectID
  Distributor : String
  DistributorSpecificMarketID : String
  MarketName : String
  Location : MarketLocation
  deriving DecidableEq

/-- Modelled from the spec: the struct `Discount` is declared outside the two source files;
its fields are the ones `GetEdekaDiscounts` fills. -/
structure Discount where
  Price : String
  Title : String
  ImageUrl : String
  ValidUntil : Int
  MarketName : String
  InternalMarketID : String
  Tags : List String
  deriving DecidableEq, Repr

/-! ## `GetEdekaMarkets` -/

/-- The fetcher `GetFromUrl(url)`: the bytes and the error it returns. -/
abbrev Fetcher : Type := String → Body × Option GoError

/-- The function `strconv.ParseFloat(s, bitSize)`: the value and the error it returns. -/
abbrev FloatParser : Type := String → Nat → Float64 × Option GoError

/-- Lines 49-53 and 55-59: parse one coordinate, `0` when the parse reports an error. -/
def parseCoordinate (ParseFloat : FloatParser) (s : String) : Float64 :=
  match ParseFloat s 32 with
  | (_, some _) => Float64.zero
  | (v, none) => v

/-- The `Market` literal of lines 61-74. -/
def marketOfEntry (ParseFloat : FloatParser) (city : String) (market : EdekaMarket) : Market :=
  let lat := parseCoordinate ParseFloat market.Coordinates.Latitude
  let lon := parseCoordinate ParseFloat market.Coordinates.Longitude
  { ID := NilObjectID
    Distributor := "edeka"
    DistributorSpecificMarketID := Itoa market.ID
    MarketName := market.Name
    Location :=
      { Coordinates := { Latitude := lat, Longitude := lon }
        City := city
        Street := market.Contact.Address.Street
        ZipCode := market.Contact.Address.City.ZIP } }

/-- The function `GetEdekaMarkets(city)`. -/
def GetEdekaMarkets (GetFromUrl : Fetcher) (ParseFloat : FloatParser) (city : String) :
    List Market × Option GoError :=
  match GetFromUrl ("https://www.edeka.de/api/marketsearch/markets?searchstring=" ++ city) with
  | (_, some err) => ([], some err)
  | (body, none) =>
    match unmarshalMarketSearch body with
    | .error err => ([], some err)
    | .ok edekaMarketSearch =>
      (edekaMarketSearch.Markets.foldl
        (fun markets market => markets ++ [marketOfEntry ParseFloat city market]) [], none)

/-! ## `GetEdekaDiscounts` -/

/-- The `Discount` literal of lines 104-112. -/
def discountOfOffer (market : Market) (discount : EdekaOffer) : Discount :=
  { Price := FormatFloat32 discount.Price
    Title := discount.Title
    ImageUrl := discount.ImageUrl
    ValidUntil := discount.ValidUntil
    MarketName := market.MarketName
    InternalMarketID := market.ID.Hex
    Tags := [market.Distributor, market.Location.City] }

/-- The function `GetEdekaDiscounts(market)`. -/
def GetEdekaDiscounts (GetFromUrl : Fetcher) (market : Market) : List Discount × Option GoError :=
  match GetFromUrl ("https://www.edeka.de/eh/service/eh/offers?marketId=" ++
      market.DistributorSpecificMarketID) with
  | (_, some err) => ([], some err)
  | (body, none) =>
    match unmarshalDiscounts body with
    | .error err => ([], some err)
    | .ok edekaDiscounts =>
      (edekaDiscounts.Docs.foldl
        (fun discounts discount => discounts ++ [discountOfOffer market discount]) [], none)

/-! ## The user store (`user.go`) -/

/-- The struct `User`. -/
structure User where
  ID : ObjectID
  Username : String
  Password : String
  UserLevel : Int
  deriving DecidableEq

/-- Modelled from the spec: the type `AuthLevel` is declared outside the two source files;
an integer level (`0` guest, `1` user, `2` admin) that `int(userLevel)` converts. -/
structure AuthLevel where
  toInt : Int
  deriving DecidableEq, Repr

/-- A Go interface value as far as the assertion `.(primitive.ObjectID)` tells apart. -/
inductive InsertedValue where
  | objectID (id : ObjectID)
  | otherValue (description : String)

/-- The struct `mongo.InsertOneResult`. -/
structure InsertOneResult where
  InsertedID : InsertedValue

/-- The users collection of the database, over a store of type `σ`: `InsertOne(ctx, doc)`
returns a result pointer (possibly nil) and an error; `UpdateOne(ctx, filter, update)` is
given the `_id` of the filter and the document of the `$set` update, and returns an error
(its result is discarded by both callers). -/
structure UsersCollection (σ : Type) where
  InsertOne : σ → User → σ × Option InsertOneResult × Option GoError
  UpdateOne : σ → ObjectID → User → σ × Option GoError

/-- How a Go call ends: it returns, or it panics. -/
inductive Outcome (α : Type) where
  | returns (a : α)
  | panics (msg : String)

/-- Lines 63-69 of `AddOrUpdateUser`: the error check after the database operation. -/
def reportResult (objectId : ObjectID) (err : Option GoError) : ObjectID × Option GoError :=
  match err with
  | some e => (objectId, some e)
  | none => (objectId, none)

/-- The method `AddOrUpdateUser(newUser)`: the store afterwards and what the call returns. -/
def AddOrUpdateUser {σ : Type} (users : UsersCollection σ) (db : σ) (newUser : User) :
    Outcome (σ × ObjectID × Option GoError) :=
  if newUser.ID.IsZero then
    match users.InsertOne db newUser with
    | (db1, result, err) =>
      match result with
      | none => .panics "invalid memory address or nil pointer dereference"
      | some r =>
        match r.InsertedID with
        | .objectID objectId => .returns (db1, reportResult objectId err)
        | .otherValue _ => .panics "interface conversion: interface is not primitive.ObjectID"
  else
    match users.UpdateOne db newUser.ID newUser with
    | (db1, err) => .returns (db1, reportResult newUser.ID err)

/-- The method `SetUserLevel(user, userLevel)`: the user behind the pointer afterwards, the
store afterwards, and the returned error. -/
def SetUserLevel {σ : Type} (users : UsersCollection σ) (db : σ) (user : User)
    (userLevel : AuthLevel) : User × σ × Option GoError :=
  let user1 : User := { user with UserLevel := userLevel.toInt }
  match users.UpdateOne db user1.ID user1 with
  | (db1, err) => (user1, db1, err)

/-! ## Sample data -/

/-- A float parser for the examples: it knows the literals `52.5` and `13.5` and reports a
syntax error for every other string. -/
def sampleParseFloat : FloatParser := fun s _ =>
  if s = "52.5" then (⟨0x404A400000000000⟩, none)
  else if s = "13.5" then (⟨0x402B000000000000⟩, none)
  else (Float64.zero, some (.other "strconv.ParseFloat: parsing: invalid syntax"))

/-- The JSON number literal of a natural number. -/
def JNumber.ofNat (n : Nat) : JNumber := ⟨false, n, [], none⟩

/-- A market search response with two entries; the second has no `contact` object and
non-numeric coordinates. -/
def sampleMarketsJson : JValue :=
  .obj [("totalCount", .num (JNumber.ofNat 2)),
    ("markets", .arr [
      .obj [("id", .num (JNumber.ofNat 4711)), ("name", .str "EDEKA Nord"),
        ("contact", .obj [("address", .obj [
          ("city", .obj [("name", .str "Berlin"), ("zipCode", .str "10115")]),
          ("street", .str "Hauptstr. 1")])]),
        ("coordinates", .obj [("lat", .str "52.5"), ("lon", .str "13.5")])],
      .obj [("id", .num ⟨true, 3, [], none⟩), ("name", .str "EDEKA Ost"),
        ("coordinates", .obj [("lat", .str "n/a"), ("lon", .str "")])]])]

/-- An offers response with two entries, priced `0.99` and `16777217`. -/
def sampleOffersJson : JValue :=
  .obj [("docs", .arr [
    .obj [("preis", .num ⟨false, 0, [9, 9], none⟩), ("titel", .str "Butter"),
      ("bild_app", .str "https://img.example/butter.png"),
      ("gueltig_bis", .num (JNumber.ofNat 1700000000))],
    .obj [("preis", .num (JNumber.ofNat 16777217)), ("titel", .str "Yacht"),
      ("bild_app", .str ""), ("gueltig_bis", .num (JNumber.ofNat 0))]])]

/-- A fetcher for the examples: it serves the market search for Berlin and the offers of
market 4711, an empty JSON object for Hamburg, bytes that are no JSON for Bremen, and a
transport error for every other address. -/
def sampleFetcher : Fetcher := fun url =>
  if url = "https://www.edeka.de/api/marketsearch/markets?searchstring=Berlin" then
    (.json sampleMarketsJson, none)
  else if url = "https://www.edeka.de/eh/service/eh/offers?marketId=4711" then
    (.json sampleOffersJson, none)
  else if url = "https://www.edeka.de/api/marketsearch/markets?searchstring=Hamburg" then
    (.json (.obj []), none)
  else if url = "https://www.edeka.de/api/marketsearch/markets?searchstring=Bremen" then
    (.malformed "unexpected end of JSON input" 0, none)
  else (.malformed "unexpected end of JSON input" 0, some (.transport "no such host"))

/-- The first market of the sample search, as stored: with a storage identifier. -/
def sampleMarket : Market :=
  { ID := ⟨[0x65, 0x4f, 0x1a, 0x2b, 0x3c, 0x4d, 0x5e, 0x6f, 0x70, 0x81, 0x92, 0xa3], rfl⟩
    Distributor := "edeka"
    DistributorSpecificMarketID := "4711"
    MarketName := "EDEKA Nord"
    Location :=
      { Coordinates := { Latitude := ⟨0x404A400000000000⟩, Longitude := ⟨0x402B000000000000⟩ }
        City := "Berlin"
        Street := "Hauptstr. 1"
        ZipCode := "10115" } }

/-- A users collection for the examples over a store that lists the users held: inserting a
user named `taken` fails without a result, any other insert stores the user under a fixed
new identifier; an update fails when no user has the identifier. -/
def sampleUsers : UsersCollection (List User) where
  InsertOne db u :=
    if u.Username = "taken" then (db, none, some (.database "E11000 duplicate key error"))
    else
      let id : ObjectID := ⟨[1, 2, 3, 4, 5, 6, 7, 8, 9, 10, 11, 12], rfl⟩
      (db ++ [{ u with ID := id }], some ⟨.objectID id⟩, none)
  UpdateOne db id u :=
    if db.any (fun x => decide (x.ID = id)) then
      (db.map (fun x => if x.ID = id then u else x), none)
    else (db, some (.database "no document matched"))

/-- What the sample market search decodes to. -/
def sampleSearch : EdekaMarketSearch :=
  { TotalCount := 2
    Markets :=
      [ { ID := 4711, Name := "EDEKA Nord"
          Contact := ⟨⟨⟨"Berlin", "10115"⟩, "Hauptstr. 1"⟩⟩
          Coordinates := ⟨"52.5", "13.5"⟩ },
        { ID := -3, Name := "EDEKA Ost"
          Contact := EdekaContact.zero
          Coordinates := ⟨"n/a", ""⟩ } ] }

/-- What the sample offers decode to. -/
def sampleOffers : EdekaDiscounts :=
  { Docs :=
      [ ⟨⟨0x3FEFAE147AE147AE⟩, "Butter", "https://img.example/butter.png", 1700000000⟩,
        ⟨⟨0x4170000010000000⟩, "Yacht", "", 0⟩ ] }

/-! ## Theorems -/

/-- The append loop builds the image of the list under `f`, behind what was there. -/
theorem foldl_append_singleton {α β : Type} (f : α → β) (l : List α) (init : List β) :
    l.foldl (fun acc x => acc ++ [f x]) init = init ++ l.map f := by
  induction l generalizing init with
  | nil => simp
  | cons x xs ih => simp [ih]

/-- `GetEdekaMarkets` when the fetch reports an error. -/
theorem GetEdekaMarkets_of_fetch_error (GetFromUrl : Fetcher) (ParseFloat : FloatParser)
    (city : String) (body : Body) (e : GoError)
    (hfetch : GetFromUrl ("https://www.edeka.de/api/marketsearch/markets?searchstring=" ++ city)
      = (body, some e)) :
    GetEdekaMarkets GetFromUrl ParseFloat city = ([], some e) := by
  simp only [GetEdekaMarkets, hfetch]

/-- `GetEdekaMarkets` when the body does not decode. -/
theorem GetEdekaMarkets_of_decode_error (GetFromUrl : Fetcher) (ParseFloat : FloatParser)
    (city : String) (body : Body) (e : GoError)
    (hfetch : GetFromUrl ("https://www.edeka.de/api/marketsearch/markets?searchstring=" ++ city)
      = (body, none))
    (hdec : unmarshalMarketSearch body = .error e) :
    GetEdekaMarkets GetFromUrl ParseFloat city = ([], some e) := by
  simp only [GetEdekaMarkets, hfetch, hdec]

/-- `GetEdekaMarkets` when the body decodes. -/
theorem GetEdekaMarkets_of_decoded (GetFromUrl : Fetcher) (ParseFloat : FloatParser)
    (city : String) (body : Body) (search : EdekaMarketSearch)
    (hfetch : GetFromUrl ("https://www.edeka.de/api/marketsearch/markets?searchstring=" ++ city)
      = (body, none))
    (hdec : unmarshalMarketSearch body = .ok search) :
    GetEdekaMarkets GetFromUrl ParseFloat city
      = (search.Markets.map (marketOfEntry ParseFloat city), none) := by
  simp only [GetEdekaMarkets, hfetch, hdec, foldl_append_singleton, List.nil_append]

/-- `GetEdekaDiscounts` when the fetch reports an error. -/
theorem GetEdekaDiscounts_of_fetch_error (GetFromUrl : Fetcher) (market : Market)
    (body : Body) (e : GoError)
    (hfetch : GetFromUrl ("https://www.edeka.de/eh/service/eh/offers?marketId=" ++
      market.DistributorSpecificMarketID) = (body, some e)) :
    GetEdekaDiscounts GetFromUrl market = ([], some e) := by
  simp only [GetEdekaDiscounts, hfetch]

/-- `GetEdekaDiscounts` when the body does not decode. -/
theorem GetEdekaDiscounts_of_decode_error (GetFromUrl : Fetcher) (market : Market)
    (body : Body) (e : GoError)
    (hfetch : GetFromUrl ("https://www.edeka.de/eh/service/eh/offers?marketId=" ++
      market.DistributorSpecificMarketID) = (body, none))
    (hdec : unmarshalDiscounts body = .error e) :
    GetEdekaDiscounts GetFromUrl market = ([], some e) := by
  simp only [GetEdekaDiscounts, hfetch, hdec]

/-- `GetEdekaDiscounts` when the body decodes. -/
theorem GetEdekaDiscounts_of_decoded (GetFromUrl : Fetcher) (market : Market)
    (body : Body) (offers : EdekaDiscounts)
    (hfetch : GetFromUrl ("https://www.edeka.de/eh/service/eh/offers?marketId=" ++
      market.DistributorSpecificMarketID) = (body, none))
    (hdec : unmarshalDiscounts body = .ok offers) :
    GetEdekaDiscounts GetFromUrl market
      = (offers.Docs.map (discountOfOffer market), none) := by
  simp only [GetEdekaDiscounts, hfetch, hdec, foldl_append_singleton, List.nil_append]

/-- C1: when the fetch succeeds and the body decodes into a sequence of entries,
`GetEdekaMarkets(city)` returns a nil error and exactly one `Market` per entry, in source
order; the market at position `i` takes `MarketName`, `Street` and `ZipCode` from entry `i`,
has `Distributor = "edeka"`, and its `Location.City` is the `city` argument (whatever city
name the entry carries); hence every returned market is located in `city`. -/
theorem GetEdekaMarkets_one_market_per_entry (GetFromUrl : Fetcher) (ParseFloat : FloatParser)
    (city : String) (body : Body) (search : EdekaMarketSearch)
    (hfetch : GetFromUrl ("https://www.edeka.de/api/marketsearch/markets?searchstring=" ++ city)
      = (body, none))
    (hdec : unmarshalMarketSearch body = .ok search) :
    (GetEdekaMarkets GetFromUrl ParseFloat city).2 = none ∧
    (GetEdekaMarkets GetFromUrl ParseFloat city).1.length = search.Markets.length ∧
    (∀ (i : Nat) (entry : EdekaMarket), search.Markets[i]? = some entry →
      ∃ m, (GetEdekaMarkets GetFromUrl ParseFloat city).1[i]? = some m ∧
        m.MarketName = entry.Name ∧
        m.Location.Street = entry.Contact.Address.Street ∧
        m.Location.ZipCode = entry.Contact.Address.City.ZIP ∧
        m.Distributor = "edeka" ∧
        m.Location.City = city) ∧
    (∀ m ∈ (GetEdekaMarkets GetFromUrl ParseFloat city).1, m.Location.City = city) := by
  rw [GetEdekaMarkets_of_decoded GetFromUrl ParseFloat city body search hfetch hdec]
  refine ⟨rfl, by simp, ?_, ?_⟩
  · intro i entry hi
    exact ⟨marketOfEntry ParseFloat city entry, by simp [List.getElem?_map, hi],
      rfl, rfl, rfl, rfl, rfl⟩
  · intro m hm
    obtain ⟨entry, _, rfl⟩ := List.mem_map.mp hm
    rfl

/-- The sample search for Berlin returns two markets; the second one is located in Berlin
although its entry names no city at all. -/
theorem GetEdekaMarkets_one_market_per_entry_witness :
    sampleFetcher ("https://www.edeka.de/api/marketsearch/markets?searchstring=" ++ "Berlin")
      = (.json sampleMarketsJson, none) ∧
    unmarshalMarketSearch (.json sampleMarketsJson) = .ok sampleSearch ∧
    (GetEdekaMarkets sampleFetcher sampleParseFloat "Berlin").2 = none ∧
    (GetEdekaMarkets sampleFetcher sampleParseFloat "Berlin").1.length
      = sampleSearch.Markets.length ∧
    (∃ m, (GetEdekaMarkets sampleFetcher sampleParseFloat "Berlin").1[1]? = some m ∧
      m.MarketName = "EDEKA Ost" ∧ m.Distributor = "edeka" ∧ m.Location.City = "Berlin") := by
  have h := GetEdekaMarkets_one_market_per_entry sampleFetcher sampleParseFloat "Berlin"
    (.json sampleMarketsJson) sampleSearch rfl rfl
  obtain ⟨m, hm, hname, _, _, hdist, hcity⟩ :=
    h.2.2.1 1 ⟨-3, "EDEKA Ost", EdekaContact.zero, ⟨"n/a", ""⟩⟩ rfl
  exact ⟨rfl, rfl, h.1, h.2.1, m, hm, hname, hdist, hcity⟩

/-- C2: when the fetch succeeds and the body decodes, the call returns a nil error and as
many markets as entries, and for entry `i` the market at position `i` has: latitude `0`
when the latitude string fails to parse and the parsed value otherwise; longitude likewise,
independently of the latitude; and every other field as for any entry.  An entry with two
non-numeric coordinates is therefore emitted with coordinates `(0, 0)`. -/
theorem GetEdekaMarkets_unparsable_coordinate_is_zero (GetFromUrl : Fetcher)
    (ParseFloat : FloatParser) (city : String) (body : Body) (search : EdekaMarketSearch)
    (hfetch : GetFromUrl ("https://www.edeka.de/api/marketsearch/markets?searchstring=" ++ city)
      = (body, none))
    (hdec : unmarshalMarketSearch body = .ok search) :
    (GetEdekaMarkets GetFromUrl ParseFloat city).2 = none ∧
    (GetEdekaMarkets GetFromUrl ParseFloat city).1.length = search.Markets.length ∧
    (∀ (i : Nat) (entry : EdekaMarket), search.Markets[i]? = some entry →
      ∃ m, (GetEdekaMarkets GetFromUrl ParseFloat city).1[i]? = some m ∧
        ((ParseFloat entry.Coordinates.Latitude 32).2 ≠ none →
          m.Location.Coordinates.Latitude = Float64.zero) ∧
        ((ParseFloat entry.Coordinates.Latitude 32).2 = none →
          m.Location.Coordinates.Latitude = (ParseFloat entry.Coordinates.Latitude 32).1) ∧
        ((ParseFloat entry.Coordinates.Longitude 32).2 ≠ none →
          m.Location.Coordinates.Longitude = Float64.zero) ∧
        ((ParseFloat entry.Coordinates.Longitude 32).2 = none →
          m.Location.Coordinates.Longitude = (ParseFloat entry.Coordinates.Longitude 32).1) ∧
        m.ID = NilObjectID ∧
        m.Distributor = "edeka" ∧
        m.DistributorSpecificMarketID = Itoa entry.ID ∧
        m.MarketName = entry.Name ∧
        m.Location.City = city ∧
        m.Location.Street = entry.Contact.Address.Street ∧
        m.Location.ZipCode = entry.Contact.Address.City.ZIP) := by
  have hcoord : ∀ s : String,
      ((ParseFloat s 32).2 ≠ none → parseCoordinate ParseFloat s = Float64.zero) ∧
      ((ParseFloat s 32).2 = none → parseCoordinate ParseFloat s = (ParseFloat s 32).1) := by
    intro s
    unfold parseCoordinate
    rcases h : ParseFloat s 32 with ⟨v, _ | e⟩ <;> simp
  rw [GetEdekaMarkets_of_decoded GetFromUrl ParseFloat city body search hfetch hdec]
  refine ⟨rfl, by simp, ?_⟩
  intro i entry hi
  exact ⟨marketOfEntry ParseFloat city entry, by simp [List.getElem?_map, hi],
    (hcoord _).1, (hcoord _).2, (hcoord _).1, (hcoord _).2, rfl, rfl, rfl, rfl, rfl, rfl, rfl⟩

/-- The second entry of the sample search has the coordinates `n/a` and the empty string:
it is emitted at position 1 with coordinates `(0, 0)` and its own name and identifier. -/
theorem GetEdekaMarkets_unparsable_coordinate_is_zero_witness :
    (GetEdekaMarkets sampleFetcher sampleParseFloat "Berlin").2 = none ∧
    (GetEdekaMarkets sampleFetcher sampleParseFloat "Berlin").1.length = 2 ∧
    ∃ m, (GetEdekaMarkets sampleFetcher sampleParseFloat "Berlin").1[1]? = some m ∧
      m.Location.Coordinates = ⟨Float64.zero, Float64.zero⟩ ∧
      m.MarketName = "EDEKA Ost" ∧ m.DistributorSpecificMarketID = "-3" := by
  obtain ⟨herr, hlen, h⟩ := GetEdekaMarkets_unparsable_coordinate_is_zero sampleFetcher
    sampleParseFloat "Berlin" (.json sampleMarketsJson) sampleSearch rfl rfl
  obtain ⟨m, hm, hlat, _, hlon, _, _, _, hid, hname, _⟩ :=
    h 1 ⟨-3, "EDEKA Ost", EdekaContact.zero, ⟨"n/a", ""⟩⟩ rfl
  refine ⟨herr, hlen, m, hm, ?_, hname, ?_⟩
  · have h1 := hlat (show (some (GoError.other
      "strconv.ParseFloat: parsing: invalid syntax") : Option GoError) ≠ none from by simp)
    have h2 := hlon (show (some (GoError.other
      "strconv.ParseFloat: parsing: invalid syntax") : Option GoError) ≠ none from by simp)
    rcases m with ⟨_, _, _, _, ⟨⟨lat, lon⟩, _, _, _⟩⟩
    simp only at h1 h2
    simp only [h1, h2]
  · rw [hid]; decide

/-- C3: in `GetEdekaMarkets` and in `GetEdekaDiscounts`, an error of the fetch, and
otherwise an error of the decode, is returned as it is together with an empty list; and
a returned error is the error of one of the two. -/
theorem edeka_errors_are_propagated (GetFromUrl : Fetcher) (ParseFloat : FloatParser)
    (city : String) (market : Market) :
    (∀ body e,
      GetFromUrl ("https://www.edeka.de/api/marketsearch/markets?searchstring=" ++ city)
        = (body, some e) →
      GetEdekaMarkets GetFromUrl ParseFloat city = ([], some e)) ∧
    (∀ body e,
      GetFromUrl ("https://www.edeka.de/api/marketsearch/markets?searchstring=" ++ city)
        = (body, none) →
      unmarshalMarketSearch body = .error e →
      GetEdekaMarkets GetFromUrl ParseFloat city = ([], some e)) ∧
    (∀ e, (GetEdekaMarkets GetFromUrl ParseFloat city).2 = some e →
      (GetEdekaMarkets GetFromUrl ParseFloat city).1 = [] ∧
      ((GetFromUrl ("https://www.edeka.de/api/marketsearch/markets?searchstring=" ++ city)).2
          = some e ∨
        ((GetFromUrl ("https://www.edeka.de/api/marketsearch/markets?searchstring=" ++ city)).2
          = none ∧
         unmarshalMarketSearch
          (GetFromUrl ("https://www.edeka.de/api/marketsearch/markets?searchstring=" ++ city)).1
          = .error e))) ∧
    (∀ body e,
      GetFromUrl ("https://www.edeka.de/eh/service/eh/offers?marketId=" ++
        market.DistributorSpecificMarketID) = (body, some e) →
      GetEdekaDiscounts GetFromUrl market = ([], some e)) ∧
    (∀ body e,
      GetFromUrl ("https://www.edeka.de/eh/service/eh/offers?marketId=" ++
        market.DistributorSpecificMarketID) = (body, none) →
      unmarshalDiscounts body = .error e →
      GetEdekaDiscounts GetFromUrl market = ([], some e)) ∧
    (∀ e, (GetEdekaDiscounts GetFromUrl market).2 = some e →
      (GetEdekaDiscounts GetFromUrl market).1 = [] ∧
      ((GetFromUrl ("https://www.edeka.de/eh/service/eh/offers?marketId=" ++
          market.DistributorSpecificMarketID)).2 = some e ∨
        ((GetFromUrl ("https://www.edeka.de/eh/service/eh/offers?marketId=" ++
          market.DistributorSpecificMarketID)).2 = none ∧
         unmarshalDiscounts (GetFromUrl ("https://www.edeka.de/eh/service/eh/offers?marketId=" ++
          market.DistributorSpecificMarketID)).1 = .error e))) := by
  refine ⟨fun body e h => GetEdekaMarkets_of_fetch_error _ _ _ body e h,
    fun body e h hd => GetEdekaMarkets_of_decode_error _ _ _ body e h hd, ?_,
    fun body e h => GetEdekaDiscounts_of_fetch_error _ _ body e h,
    fun body e h hd => GetEdekaDiscounts_of_decode_error _ _ body e h hd, ?_⟩
  · intro e he
    rcases hf : GetFromUrl ("https://www.edeka.de/api/marketsearch/markets?searchstring=" ++ city)
      with ⟨body, _ | e1⟩
    · rcases hd : unmarshalMarketSearch body with e2 | search
      · rw [GetEdekaMarkets_of_decode_error _ _ _ body e2 hf hd] at he ⊢
        simp only [Option.some.injEq] at he
        subst he
        exact ⟨rfl, Or.inr ⟨rfl, rfl⟩⟩
      · rw [GetEdekaMarkets_of_decoded _ _ _ body search hf hd] at he
        simp at he
    · rw [GetEdekaMarkets_of_fetch_error _ _ _ body e1 hf] at he ⊢
      simp only [Option.some.injEq] at he
      subst he
      exact ⟨rfl, Or.inl rfl⟩
  · intro e he
    rcases hf : GetFromUrl ("https://www.edeka.de/eh/service/eh/offers?marketId=" ++
      market.DistributorSpecificMarketID) with ⟨body, _ | e1⟩
    · rcases hd : unmarshalDiscounts body with e2 | offers
      · rw [GetEdekaDiscounts_of_decode_error _ _ body e2 hf hd] at he ⊢
        simp only [Option.some.injEq] at he
        subst he
        exact ⟨rfl, Or.inr ⟨rfl, rfl⟩⟩
      · rw [GetEdekaDiscounts_of_decoded _ _ body offers hf hd] at he
        simp at he
    · rw [GetEdekaDiscounts_of_fetch_error _ _ body e1 hf] at he ⊢
      simp only [Option.some.injEq] at he
      subst he
      exact ⟨rfl, Or.inl rfl⟩

/-- The sample fetcher cannot reach the search for Kiel, and serves bytes that are no JSON
for Bremen: both calls return the empty list and that very error. -/
theorem edeka_errors_are_propagated_witness :
    GetEdekaMarkets sampleFetcher sampleParseFloat "Kiel"
      = ([], some (.transport "no such host")) ∧
    GetEdekaMarkets sampleFetcher sampleParseFloat "Bremen"
      = ([], some (.syntaxError "unexpected end of JSON input" 0)) :=
  ⟨(edeka_errors_are_propagated sampleFetcher sampleParseFloat "Kiel" sampleMarket).1
      (.malformed "unexpected end of JSON input" 0) (.transport "no such host") rfl,
   (edeka_errors_are_propagated sampleFetcher sampleParseFloat "Bremen" sampleMarket).2.1
      (.malformed "unexpected end of JSON input" 0)
      (.syntaxError "unexpected end of JSON input" 0) rfl rfl⟩

/-- C5: when the fetch succeeds and the body decodes into a sequence of offers,
`GetEdekaDiscounts(market)` returns a nil error and exactly one `Discount` per offer, in
source order; the discount at position `i` takes `Title`, `ImageUrl` and `ValidUntil` from
offer `i` as they are, has `MarketName = market.MarketName`, and its `Tags` are the
two-element list `[market.Distributor, market.Location.City]`. -/
theorem GetEdekaDiscounts_one_discount_per_offer (GetFromUrl : Fetcher) (market : Market)
    (body : Body) (offers : EdekaDiscounts)
    (hfetch : GetFromUrl ("https://www.edeka.de/eh/service/eh/offers?marketId=" ++
      market.DistributorSpecificMarketID) = (body, none))
    (hdec : unmarshalDiscounts body = .ok offers) :
    (GetEdekaDiscounts GetFromUrl market).2 = none ∧
    (GetEdekaDiscounts GetFromUrl market).1.length = offers.Docs.length ∧
    (∀ (i : Nat) (offer : EdekaOffer), offers.Docs[i]? = some offer →
      ∃ d, (GetEdekaDiscounts GetFromUrl market).1[i]? = some d ∧
        d.Title = offer.Title ∧
        d.ImageUrl = offer.ImageUrl ∧
        d.ValidUntil = offer.ValidUntil ∧
        d.MarketName = market.MarketName ∧
        d.Tags = [market.Distributor, market.Location.City]) := by
  rw [GetEdekaDiscounts_of_decoded GetFromUrl market body offers hfetch hdec]
  refine ⟨rfl, by simp, ?_⟩
  intro i offer hi
  exact ⟨discountOfOffer market offer, by simp [List.getElem?_map, hi],
    rfl, rfl, rfl, rfl, rfl⟩

/-- The sample offers of market 4711: two discounts, the first one titled `Butter` and
tagged `edeka`, `Berlin`. -/
theorem GetEdekaDiscounts_one_discount_per_offer_witness :
    (GetEdekaDiscounts sampleFetcher sampleMarket).2 = none ∧
    (GetEdekaDiscounts sampleFetcher sampleMarket).1.length = 2 ∧
    ∃ d, (GetEdekaDiscounts sampleFetcher sampleMarket).1[0]? = some d ∧
      d.Title = "Butter" ∧ d.ValidUntil = 1700000000 ∧ d.MarketName = "EDEKA Nord" ∧
      d.Tags = ["edeka", "Berlin"] := by
  obtain ⟨herr, hlen, h⟩ := GetEdekaDiscounts_one_discount_per_offer sampleFetcher sampleMarket
    (.json sampleOffersJson) sampleOffers rfl rfl
  obtain ⟨d, hd, htitle, _, hvalid, hname, htags⟩ := h 0 _ rfl
  exact ⟨herr, hlen, d, hd, htitle, hvalid, hname, htags⟩

/-- A decimal digit character has the code of `0` plus the digit. -/
theorem digitChar_toNat : ∀ d, d < 10 → (digitChar d).toNat = 48 + d := by decide

/-- Reading a digit string with one more digit at the end. -/
theorem valChars_append_singleton (ds : List Char) (c : Char) :
    valChars (ds ++ [c]) = 10 * valChars ds + (c.toNat - 48) := by
  simp [valChars, List.foldl_append]

/-- The digits `formatBits` puts in front of the accumulator: they read back as `n`, there
is at least one, and none is a minus sign. -/
theorem formatBits_spec : ∀ (fuel n : Nat) (acc : List Char), n < fuel →
    ∃ ds, formatBits fuel n acc = ds ++ acc ∧ valChars ds = n ∧ ds ≠ [] ∧
      ∀ c ∈ ds, c ≠ '-' := by
  intro fuel
  induction fuel with
  | zero => intro n acc h; omega
  | succ fuel ih =>
    intro n acc hn
    have hmod : n % 10 < 10 := Nat.mod_lt _ (by decide)
    have hdig : (digitChar (n % 10)).toNat = 48 + n % 10 := digitChar_toNat _ hmod
    have hne : digitChar (n % 10) ≠ '-' := by
      intro h
      rw [h] at hdig
      have : ('-' : Char).toNat = 45 := by decide
      omega
    unfold formatBits
    by_cases h0 : n / 10 = 0
    · rw [if_pos h0]
      refine ⟨[digitChar (n % 10)], rfl, ?_, by simp, ?_⟩
      · have := valChars_append_singleton [] (digitChar (n % 10))
        simp only [List.nil_append] at this
        rw [this, hdig]
        simp only [valChars, List.foldl_nil]
        omega
      · intro c hc
        rw [List.mem_singleton] at hc
        rw [hc]; exact hne
    · rw [if_neg h0]
      obtain ⟨ds, hds, hval, _, hminus⟩ :=
        ih (n / 10) (digitChar (n % 10) :: acc) (by omega)
      refine ⟨ds ++ [digitChar (n % 10)], by rw [hds]; simp, ?_, by simp, ?_⟩
      · rw [valChars_append_singleton, hval, hdig]; omega
      · intro c hc
        rcases List.mem_append.mp hc with h | h
        · exact hminus c h
        · rw [List.mem_singleton] at h
          rw [h]; exact hne

/-- The digits of a natural number read back as the number. -/
theorem valChars_utoa (n : Nat) : valChars (utoa n) = n := by
  obtain ⟨ds, hds, hval, _, _⟩ := formatBits_spec (n + 1) n [] (by omega)
  unfold utoa
  rw [hds, List.append_nil, hval]

/-- The digits of a natural number do not start with a minus sign. -/
theorem utoa_ne_minus_cons (n : Nat) (l : List Char) : utoa n ≠ '-' :: l := by
  obtain ⟨ds, hds, _, hne, hminus⟩ := formatBits_spec (n + 1) n [] (by omega)
  unfold utoa
  rw [hds, List.append_nil]
  intro h
  exact hminus '-' (by rw [h]; simp) rfl

/-- `strconv.Itoa` is injective. -/
theorem Itoa_injective (j k : Int) (h : Itoa j = Itoa k) : j = k := by
  unfold Itoa at h
  by_cases hj : j < 0 <;> by_cases hk : k < 0
  · rw [if_pos hj, if_pos hk] at h
    have h1 : utoa j.natAbs = utoa k.natAbs := (List.cons.inj (congrArg String.data h)).2
    have h2 : j.natAbs = k.natAbs := by rw [← valChars_utoa j.natAbs, h1, valChars_utoa]
    omega
  · rw [if_pos hj, if_neg hk] at h
    have h1 : '-' :: utoa j.natAbs = utoa k.natAbs := congrArg String.data h
    exact absurd h1.symm (utoa_ne_minus_cons _ _)
  · rw [if_neg hj, if_pos hk] at h
    have h1 : utoa j.natAbs = '-' :: utoa k.natAbs := congrArg String.data h
    exact absurd h1 (utoa_ne_minus_cons _ _)
  · rw [if_neg hj, if_neg hk] at h
    have h1 : utoa j.natAbs = utoa k.natAbs := congrArg String.data h
    have h2 : j.natAbs = k.natAbs := by rw [← valChars_utoa j.natAbs, h1, valChars_utoa]
    omega

/-- C8: when the fetch succeeds and the body decodes, the market at position `i` has
`DistributorSpecificMarketID = strconv.Itoa(id)` for the integer `id` of entry `i`; and
`Itoa` gives equal strings exactly for equal integers, negative ones and zero included, so
markets of two entries carry the same identifier exactly when the entries carry the same
`id`. -/
theorem market_id_is_decimal_and_injective (GetFromUrl : Fetcher) (ParseFloat : FloatParser)
    (city : String) (body : Body) (search : EdekaMarketSearch)
    (hfetch : GetFromUrl ("https://www.edeka.de/api/marketsearch/markets?searchstring=" ++ city)
      = (body, none))
    (hdec : unmarshalMarketSearch body = .ok search) :
    (∀ (i : Nat) (entry : EdekaMarket), search.Markets[i]? = some entry →
      ∃ m, (GetEdekaMarkets GetFromUrl ParseFloat city).1[i]? = some m ∧
        m.DistributorSpecificMarketID = Itoa entry.ID) ∧
    (∀ j k : Int, Itoa j = Itoa k ↔ j = k) ∧
    (∀ (i1 i2 : Nat) (e1 e2 : EdekaMarket) (m1 m2 : Market),
      search.Markets[i1]? = some e1 → search.Markets[i2]? = some e2 →
      (GetEdekaMarkets GetFromUrl ParseFloat city).1[i1]? = some m1 →
      (GetEdekaMarkets GetFromUrl ParseFloat city).1[i2]? = some m2 →
      (m1.DistributorSpecificMarketID = m2.DistributorSpecificMarketID ↔ e1.ID = e2.ID)) := by
  have hinj : ∀ j k : Int, Itoa j = Itoa k ↔ j = k :=
    fun j k => ⟨Itoa_injective j k, fun h => by rw [h]⟩
  rw [GetEdekaMarkets_of_decoded GetFromUrl ParseFloat city body search hfetch hdec]
  refine ⟨?_, hinj, ?_⟩
  · intro i entry hi
    exact ⟨marketOfEntry ParseFloat city entry, by simp [List.getElem?_map, hi], rfl⟩
  · intro i1 i2 e1 e2 m1 m2 h1 h2 hm1 hm2
    simp only [List.getElem?_map, h1, h2, Option.map_some', Option.some.injEq] at hm1 hm2
    subst hm1 hm2
    exact hinj e1.ID e2.ID

/-- The two markets of the sample search carry the identifiers `4711` and `-3`. -/
theorem market_id_is_decimal_and_injective_witness :
    (∃ m, (GetEdekaMarkets sampleFetcher sampleParseFloat "Berlin").1[1]? = some m ∧
      m.DistributorSpecificMarketID = "-3") ∧
    (Itoa 4711 = Itoa (-3) ↔ (4711 : Int) = -3) := by
  obtain ⟨h, hinj, _⟩ := market_id_is_decimal_and_injective sampleFetcher sampleParseFloat
    "Berlin" (.json sampleMarketsJson) sampleSearch rfl rfl
  obtain ⟨m, hm, hid⟩ := h 1 ⟨-3, "EDEKA Ost", EdekaContact.zero, ⟨"n/a", ""⟩⟩ rfl
  exact ⟨⟨m, hm, by rw [hid]; decide⟩, hinj 4711 (-3)⟩

/-- The hexadecimal form of an `ObjectID` has 24 characters. -/
theorem ObjectID.Hex_length (id : ObjectID) : id.Hex.length = 24 := by
  have h : ∀ bs : List (Fin 256),
      (bs.flatMap fun b => [hexDigit (b.val / 16), hexDigit (b.val % 16)]).length
        = 2 * bs.length := by
    intro bs
    induction bs with
    | nil => rfl
    | cons b bs ih => simp only [List.flatMap_cons, List.length_append, List.length_cons,
        List.length_nil, ih]; omega
  unfold ObjectID.Hex
  rw [String.length_mk, h, id.property]

/-- C7, on the sample offers: the discounts do not leave `InternalMarketID` empty; both
carry the hexadecimal form of the identifier of the market passed in. -/
theorem GetEdekaDiscounts_fills_InternalMarketID :
    (GetEdekaDiscounts sampleFetcher sampleMarket).1.map (fun d => d.InternalMarketID)
      = ["654f1a2b3c4d5e6f708192a3", "654f1a2b3c4d5e6f708192a3"] ∧
    ¬ ∀ d ∈ (GetEdekaDiscounts sampleFetcher sampleMarket).1, d.InternalMarketID = "" := by
  decide

/-- C7, amended: when the fetch succeeds and the body decodes, every discount carries as
`InternalMarketID` the hexadecimal form `market.ID.Hex()` of the storage identifier of
the market passed in, a string of 24 characters: the adapter copies the identifier the
market already has and computes no other. -/
theorem GetEdekaDiscounts_InternalMarketID_is_market_hex (GetFromUrl : Fetcher)
    (market : Market) (body : Body) (offers : EdekaDiscounts)
    (hfetch : GetFromUrl ("https://www.edeka.de/eh/service/eh/offers?marketId=" ++
      market.DistributorSpecificMarketID) = (body, none))
    (hdec : unmarshalDiscounts body = .ok offers) :
    ∀ d ∈ (GetEdekaDiscounts GetFromUrl market).1,
      d.InternalMarketID = market.ID.Hex ∧ d.InternalMarketID.length = 24 := by
  rw [GetEdekaDiscounts_of_decoded GetFromUrl market body offers hfetch hdec]
  intro d hd
  obtain ⟨offer, _, rfl⟩ := List.mem_map.mp hd
  exact ⟨rfl, ObjectID.Hex_length market.ID⟩

/-- Every discount of the sample offers carries the identifier of the sample market. -/
theorem GetEdekaDiscounts_InternalMarketID_is_market_hex_witness :
    ((GetEdekaDiscounts sampleFetcher sampleMarket).1.all fun d =>
      decide (d.InternalMarketID = sampleMarket.ID.Hex ∧ d.InternalMarketID.length = 24))
      = true :=
  List.all_eq_true.mpr fun d hd => decide_eq_true
    (GetEdekaDiscounts_InternalMarketID_is_market_hex sampleFetcher sampleMarket
      (.json sampleOffersJson) sampleOffers rfl rfl d hd)

/-- C9: after `SetUserLevel(user, level)` the user has `UserLevel = int(level)` and the
`ID`, `Username` and `Password` it had; the store and the returned error are those of the
one `UpdateOne` call, which is keyed by the user's `ID` and is given the user as already
updated. -/
theorem SetUserLevel_sets_level_and_updates {σ : Type} (users : UsersCollection σ) (db : σ)
    (user : User) (userLevel : AuthLevel) :
    (SetUserLevel users db user userLevel).1.UserLevel = userLevel.toInt ∧
    (SetUserLevel users db user userLevel).1.ID = user.ID ∧
    (SetUserLevel users db user userLevel).1.Username = user.Username ∧
    (SetUserLevel users db user userLevel).1.Password = user.Password ∧
    (SetUserLevel users db user userLevel).2
      = users.UpdateOne db user.ID (SetUserLevel users db user userLevel).1 ∧
    (SetUserLevel users db user userLevel).2.2
      = (users.UpdateOne db user.ID
          { ID := user.ID, Username := user.Username, Password := user.Password,
            UserLevel := userLevel.toInt }).2 := by
  unfold SetUserLevel
  refine ⟨rfl, rfl, rfl, rfl, rfl, rfl⟩

/-- `AddOrUpdateUser` on a user with an identifier: one update keyed by that identifier,
whose error is returned together with the identifier. -/
theorem AddOrUpdateUser_update_branch {σ : Type} (users : UsersCollection σ) (db : σ)
    (newUser : User) (hid : newUser.ID.IsZero = false) :
    AddOrUpdateUser users db newUser
      = .returns ((users.UpdateOne db newUser.ID newUser).1, newUser.ID,
          (users.UpdateOne db newUser.ID newUser).2) := by
  unfold AddOrUpdateUser
  rw [hid]
  rcases users.UpdateOne db newUser.ID newUser with ⟨db1, _ | e⟩ <;> rfl

/-- C10, where the code departs from it: for a user with the zero identifier whose insert
fails without a result (`InsertOne` returns a nil result and an error), `AddOrUpdateUser`
dereferences the nil result before it looks at the error, and panics; no error is
returned. -/
theorem AddOrUpdateUser_failed_insert_panics {σ : Type} (users : UsersCollection σ) (db : σ)
    (newUser : User) (hid : newUser.ID.IsZero = true)
    (hins : (users.InsertOne db newUser).2.1 = none) :
    AddOrUpdateUser users db newUser
      = .panics "invalid memory address or nil pointer dereference" := by
  unfold AddOrUpdateUser
  rw [hid]
  rcases h : users.InsertOne db newUser with ⟨db1, result, err⟩
  rw [h] at hins
  simp only at hins
  subst hins
  rfl

/-- Registering the name `taken` with the sample collection: the insert fails with a
duplicate key error and a nil result, and the call panics. -/
theorem AddOrUpdateUser_failed_insert_panics_witness :
    (sampleUsers.InsertOne [] ⟨NilObjectID, "taken", "secret", 0⟩).2.2
      = some (.database "E11000 duplicate key error") ∧
    AddOrUpdateUser sampleUsers [] ⟨NilObjectID, "taken", "secret", 0⟩
      = .panics "invalid memory address or nil pointer dereference" :=
  ⟨rfl, AddOrUpdateUser_failed_insert_panics sampleUsers [] ⟨NilObjectID, "taken", "secret", 0⟩
    rfl rfl⟩

/-- A struct is left as it is by an object none of whose members sets a field. -/
theorem decodeStruct_skips_unselected {α : Type}
    (setField : α → String → JValue → Except GoError α) (cur : α)
    (members : List (String × JValue))
    (h : ∀ kv ∈ members, setField cur kv.1 kv.2 = .ok cur) :
    decodeStruct setField cur (.obj members) = .ok cur := by
  show members.foldlM (fun acc kv => setField acc kv.1 kv.2) cur = .ok cur
  induction members with
  | nil => rfl
  | cons kv rest ih =>
    rw [List.foldlM_cons, h kv (List.mem_cons_self _ _)]
    exact ih (fun kv1 hkv => h kv1 (List.mem_cons_of_mem _ hkv))

/-- C4, on two bodies that lack the keys: the empty JSON object served for Hamburg gives
the empty list and a nil error, not a decode error; and a body whose only market entry
has an `id` and nothing else (no `name`, no `contact`, no `coordinates`) gives one
market and a nil error. -/
theorem GetEdekaMarkets_missing_keys_is_no_decode_error :
    sampleFetcher "https://www.edeka.de/api/marketsearch/markets?searchstring=Hamburg"
      = (.json (.obj []), none) ∧
    GetEdekaMarkets sampleFetcher sampleParseFloat "Hamburg" = ([], none) ∧
    GetEdekaMarkets
        (fun _ => (.json (.obj [("markets", .arr [.obj [("id", .num (JNumber.ofNat 7))]])]), none))
        sampleParseFloat "Berlin"
      = ([{ ID := NilObjectID, Distributor := "edeka", DistributorSpecificMarketID := "7",
            MarketName := "",
            Location := ⟨⟨Float64.zero, Float64.zero⟩, "Berlin", "", ""⟩ }], none) :=
  ⟨rfl, rfl, rfl⟩

/-- C4, amended: a body that fails to decode (it is no JSON text, or a value in it has the
wrong JSON type for its field) makes `GetEdekaMarkets` return the empty list and the
decode error, no market; a missing key is not such a failure: a body that is a JSON object
without a `totalCount` and without a `markets` member gives the empty list and a nil
error. -/
theorem GetEdekaMarkets_decode_error_or_zero_values (GetFromUrl : Fetcher)
    (ParseFloat : FloatParser) (city : String) :
    (∀ body e,
      GetFromUrl ("https://www.edeka.de/api/marketsearch/markets?searchstring=" ++ city)
        = (body, none) →
      unmarshalMarketSearch body = .error e →
      GetEdekaMarkets GetFromUrl ParseFloat city = ([], some e)) ∧
    (∀ members : List (String × JValue),
      GetFromUrl ("https://www.edeka.de/api/marketsearch/markets?searchstring=" ++ city)
        = (.json (.obj members), none) →
      (∀ kv ∈ members, equalFold kv.1 "totalCount" = false ∧ equalFold kv.1 "markets" = false) →
      GetEdekaMarkets GetFromUrl ParseFloat city = ([], none)) := by
  refine ⟨fun body e h hd => GetEdekaMarkets_of_decode_error _ _ _ body e h hd, ?_⟩
  intro members hfetch hkeys
  have hdec : unmarshalMarketSearch (.json (.obj members)) = .ok EdekaMarketSearch.zero := by
    show decodeStruct EdekaMarketSearch.setField EdekaMarketSearch.zero (.obj members) = _
    apply decodeStruct_skips_unselected
    intro kv hkv
    unfold EdekaMarketSearch.setField
    rw [(hkeys kv hkv).1, (hkeys kv hkv).2]
    rfl
  rw [GetEdekaMarkets_of_decoded GetFromUrl ParseFloat city _ _ hfetch hdec]
  rfl

/-- A body that is no JSON text gives the syntax error; a body that only reports
`"error": "not found"` gives the empty list and a nil error. -/
theorem GetEdekaMarkets_decode_error_or_zero_values_witness :
    GetEdekaMarkets sampleFetcher sampleParseFloat "Bremen"
      = ([], some (.syntaxError "unexpected end of JSON input" 0)) ∧
    GetEdekaMarkets (fun _ => (.json (.obj [("error", .str "not found")]), none))
      sampleParseFloat "Berlin" = ([], none) :=
  ⟨(GetEdekaMarkets_decode_error_or_zero_values sampleFetcher sampleParseFloat "Bremen").1
      (.malformed "unexpected end of JSON input" 0)
      (.syntaxError "unexpected end of JSON input" 0) rfl rfl,
   (GetEdekaMarkets_decode_error_or_zero_values
      (fun _ => (.json (.obj [("error", .str "not found")]), none))
      sampleParseFloat "Berlin").2 [("error", .str "not found")] rfl
      (by
        intro kv hkv
        rw [List.mem_singleton] at hkv
        subst hkv
        exact ⟨by decide, by decide⟩)⟩

set_option maxRecDepth 8000 in
/-- C6, where the code departs from it: the sample offers carry the prices `0.99` and
`16777217`; both decode exactly to the nearest `float64` (`16777217` is one), and the
prices returned are `"0.99"` and `"16777216"`: `FormatFloat` with bit size 32 rounds the
decoded value to `float32` first, so the second string denotes another number than the
decoded price.  A finite price beyond the `float32` range, `1e39`, is even written as
`+Inf`. -/
theorem GetEdekaDiscounts_price_is_rounded_to_float32 :
    unmarshalDiscounts (.json sampleOffersJson) = .ok sampleOffers ∧
    parseFloat64 (JNumber.ofNat 16777217) = some ⟨0x4170000010000000⟩ ∧
    (GetEdekaDiscounts sampleFetcher sampleMarket).1.map (fun d => d.Price)
      = ["0.99", "16777216"] ∧
    parseFloat64 (JNumber.ofNat 16777216) ≠ parseFloat64 (JNumber.ofNat 16777217) ∧
    (parseFloat64 ⟨false, 1, [], some 39⟩).map FormatFloat32 = some "+Inf" := by
  refine ⟨rfl, ?_, ?_, ?_, ?_⟩
  · decide
  · decide
  · decide
  · decide

end TasteBuddy
